import Mathlib

/-!
Verification development for the `yt-api` crate (`src/videos.rs`): a typed
client for the YouTube `videos` endpoint.  The Rust source is shallowly
embedded below: the request builder (`Videos::new`, `Videos::id`), the
form-urlencoded query serialization of `VideosData`, the `Future`
implementation of `Videos` (as an explicit state machine polled against an
abstract transport "world"), the error taxonomy, and the serde
deserialization of the `Response` JSON tree.
-/

namespace YtApi

/-! ### Form-urlencoding (model of serde_urlencoded / url::form_urlencoded)

`serde_urlencoded::to_string` serializes a struct as `&`-joined `key=value`
pairs in field-declaration order, each component encoded with the
`application/x-www-form-urlencoded` byte set: bytes `*`, `-`, `.`, `_`,
digits and ASCII letters pass through, space becomes `+`, every other byte
becomes `%XX` with uppercase hex, operating on the UTF-8 bytes of the
string. -/

/-- Bytes the form-urlencoded encoder leaves unescaped:
`*`, `-`, `.`, `0`-`9`, `A`-`Z`, `_`, `a`-`z`. -/
def formUnreserved (b : Nat) : Bool :=
  b == 42 || b == 45 || b == 46 || (48 ≤ b && b ≤ 57) ||
    (65 ≤ b && b ≤ 90) || b == 95 || (97 ≤ b && b ≤ 122)

/-- Uppercase hexadecimal digit for `n < 16`. -/
def hexDigitChar (n : Nat) : Char :=
  if n < 10 then Char.ofNat (48 + n) else Char.ofNat (55 + n)

/-- Encode one byte per the form-urlencoded rules. -/
def encodeByte (b : Nat) : List Char :=
  if b == 32 then ['+']
  else if formUnreserved b then [Char.ofNat b]
  else ['%', hexDigitChar (b / 16), hexDigitChar (b % 16)]

/-- UTF-8 byte sequence of a character (standard 1-4 byte encoding). -/
def utf8Bytes (c : Char) : List Nat :=
  let n := c.toNat
  if n < 0x80 then [n]
  else if n < 0x800 then [0xC0 + n / 64, 0x80 + n % 64]
  else if n < 0x10000 then
    [0xE0 + n / 4096, 0x80 + n / 64 % 64, 0x80 + n % 64]
  else
    [0xF0 + n / 262144, 0x80 + n / 4096 % 64, 0x80 + n / 64 % 64, 0x80 + n % 64]

/-- Form-urlencode a string: percent-encode the UTF-8 bytes. -/
def formEncode (s : String) : String :=
  String.mk ((s.data.flatMap utf8Bytes).flatMap encodeByte)

/-! ### The request data (`VideosData`) and its serialization

```rust
 #[derive(Debug, Clone, Serialize)]
 #[serde(rename_all = "camelCase")]
 struct VideosData {
    key: ApiKey,
    part: String,
    #[serde(skip_serializing_if = "Option::is_none")]
    id: Option<String>,
}
```

`ApiKey` is declared in the crate root, which is not part of the sources
here.  Modelled from the spec: `ApiKey` is "a string used in a query
parameter named key", so it is embedded as a `String` serialized as its
string value.  The field names `key`, `part`, `id` are unchanged by the
camelCase rename. -/

structure VideosData where
  key : String
  part : String
  id : Option String
deriving DecidableEq, Repr

/-- The primitive values the form serializer can receive for a field.
`serde_urlencoded` supports only primitive (string-like) values inside a
pair; sequences, maps and nested structs make `to_string` fail. -/
inductive UrlValue where
  | str (s : String)
  | unsupported (description : String)
deriving DecidableEq, Repr

/-- Serialize one `name=value` pair, or fail as `serde_urlencoded` does on an
unsupported value kind. -/
def serializePair : String × UrlValue → Except String String
  | (k, .str v) => .ok (formEncode k ++ "=" ++ formEncode v)
  | (_, .unsupported d) => .error ("unsupported value: " ++ d)

/-- Model of `serde_urlencoded::to_string` on a field list: serialize each
pair and join with `&`. -/
def urlencodedToString (pairs : List (String × UrlValue)) : Except String String := do
  let parts ← pairs.mapM serializePair
  pure (String.intercalate "&" parts)

/-- The field list emitted by the derived `Serialize` for `VideosData`:
`key`, `part` in declaration order, then `id` unless it is `None`
(`skip_serializing_if = "Option::is_none"`). -/
def VideosData.serializeFields (d : VideosData) : List (String × UrlValue) :=
  [("key", .str d.key), ("part", .str d.part)] ++
    (match d.id with
     | some i => [("id", .str i)]
     | none => [])

/-- The value of `serde_urlencoded::to_string(&data)` for a `VideosData`. -/
def VideosData.encode (d : VideosData) : Except String String :=
  urlencodedToString d.serializeFields

/-- The encoded `(name, encoded value)` pairs of a `VideosData` query, used
to speak about which keys appear in the query string. -/
def VideosData.queryPairs (d : VideosData) : List (String × String) :=
  [("key", formEncode d.key), ("part", formEncode d.part)] ++
    (match d.id with
     | some i => [("id", formEncode i)]
     | none => [])

/-- The query string as the `&`-join of `queryPairs`. -/
def VideosData.queryString (d : VideosData) : String :=
  String.intercalate "&" (d.queryPairs.map (fun p => p.1 ++ "=" ++ p.2))

/-! ### The response data model

Direct embedding of the `Deserialize` structs of `src/videos.rs`.  The only
non-local type is `chrono::DateTime<Utc>` (the chrono crate is not part of
this repository); it is modelled as the raw RFC-3339 text it was parsed
from, guarded by a format check. -/

/-- Modelled from the spec: the "optional publish timestamp (UTC)" field is
a `chrono::DateTime<Utc>`; the chrono crate is external, so the value is
embedded as the raw RFC-3339 string accepted by its parser. -/
structure DateTimeUtc where
  raw : String
deriving DecidableEq, Repr

def isDigitChar (c : Char) : Bool :=
  48 ≤ c.toNat && c.toNat ≤ 57

/-- One or more digits followed by a final `Z`. -/
def digitsThenZ : List Char → Bool
  | ['Z'] => true
  | c :: rest => isDigitChar c && digitsThenZ rest
  | [] => false

/-- Tail of an RFC-3339 timestamp after the seconds: `Z` or `.fff…Z`. -/
def rfc3339TailOk : List Char → Bool
  | ['Z'] => true
  | '.' :: c :: rest => isDigitChar c && digitsThenZ (c :: rest)
  | _ => false

/-- Modelled from the spec: chrono's RFC-3339 timestamp parser, abstracted
as a shape check `YYYY-MM-DDTHH:MM:SS[.fff]Z`. -/
def rfc3339Ok (s : String) : Bool :=
  match s.data with
  | y1 :: y2 :: y3 :: y4 :: '-' :: m1 :: m2 :: '-' :: d1 :: d2 :: 'T' ::
      h1 :: h2 :: ':' :: n1 :: n2 :: ':' :: s1 :: s2 :: rest =>
    [y1, y2, y3, y4, m1, m2, d1, d2, h1, h2, n1, n2, s1, s2].all isDigitChar
      && rfc3339TailOk rest
  | _ => false

def parseDateTime (s : String) : Option DateTimeUtc :=
  if rfc3339Ok s then some ⟨s⟩ else none

structure Thumbnail where
  url : String
  width : Option Nat
  height : Option Nat
deriving DecidableEq, Repr

structure Thumbnails where
  default : Option Thumbnail
  medium : Option Thumbnail
  high : Option Thumbnail
  standard : Option Thumbnail
  maxres : Option Thumbnail
deriving DecidableEq, Repr

structure Snippet where
  publishedAt : Option DateTimeUtc
  channelId : Option String
  title : Option String
  description : Option String
  thumbnails : Option Thumbnails
  channelTitle : Option String
  categoryId : Option String
  liveBroadcastContent : Option String
deriving DecidableEq, Repr

structure ContentDetails where
  duration : Option String
  dimension : Option String
  definition : Option String
deriving DecidableEq, Repr

structure PageInfo where
  totalResults : Int
  resultsPerPage : Int
deriving DecidableEq, Repr

structure VideoResult where
  kind : String
  etag : String
  id : String
  snippet : Snippet
  contentDetails : ContentDetails
deriving DecidableEq, Repr

structure Response where
  kind : String
  etag : String
  nextPageToken : Option String
  prevPageToken : Option String
  pageInfo : PageInfo
  items : List VideoResult
deriving DecidableEq, Repr

/-! ### JSON values and serde field access

serde's derived deserializers visit an object's entries, erroring on a
duplicate of a declared field, ignoring unknown fields, and finally
requiring every non-`Option` field to be present; a missing `Option` field
becomes `None`, as does an explicit `null`.  That behavior is captured by
`getField` (duplicate-detecting lookup) plus per-kind field parsers. -/

inductive Json where
  | obj (fields : List (String × Json))
  | arr (items : List Json)
  | str (s : String)
  | num (n : Int)
  | bool (b : Bool)
  | null
deriving Repr

/-- Look a declared field up in an object's entry list: absent gives
`none`, present once gives its value, present twice errors as serde's
"duplicate field". -/
def getField (fields : List (String × Json)) (name : String) :
    Except String (Option Json) :=
  match fields.filter (fun p => p.1 == name) with
  | [] => .ok none
  | [p] => .ok (some p.2)
  | _ => .error ("duplicate field " ++ name)

/-- Required `String` field. -/
def reqStr (fields : List (String × Json)) (name : String) :
    Except String String :=
  match getField fields name with
  | .error e => .error e
  | .ok none => .error ("missing field " ++ name)
  | .ok (some (.str s)) => .ok s
  | .ok (some _) => .error ("invalid type for field " ++ name)

/-- Optional `String` field: absent or `null` is `none`. -/
def optStr (fields : List (String × Json)) (name : String) :
    Except String (Option String) :=
  match getField fields name with
  | .error e => .error e
  | .ok none => .ok none
  | .ok (some .null) => .ok none
  | .ok (some (.str s)) => .ok (some s)
  | .ok (some _) => .error ("invalid type for field " ++ name)

/-- Required `i64` field: an integer in the `i64` range. -/
def reqI64 (fields : List (String × Json)) (name : String) :
    Except String Int :=
  match getField fields name with
  | .error e => .error e
  | .ok none => .error ("missing field " ++ name)
  | .ok (some (.num n)) =>
    if -(2 ^ 63) ≤ n ∧ n < 2 ^ 63 then .ok n
    else .error ("out of range for field " ++ name)
  | .ok (some _) => .error ("invalid type for field " ++ name)

/-- Optional `u64` field: absent or `null` is `none`; a present number must
be a nonnegative integer below `2^64`. -/
def optU64 (fields : List (String × Json)) (name : String) :
    Except String (Option Nat) :=
  match getField fields name with
  | .error e => .error e
  | .ok none => .ok none
  | .ok (some .null) => .ok none
  | .ok (some (.num n)) =>
    if 0 ≤ n ∧ n < 2 ^ 64 then .ok (some n.toNat)
    else .error ("out of range for field " ++ name)
  | .ok (some _) => .error ("invalid type for field " ++ name)

/-- Optional `DateTime<Utc>` field. -/
def optDateTime (fields : List (String × Json)) (name : String) :
    Except String (Option DateTimeUtc) :=
  match getField fields name with
  | .error e => .error e
  | .ok none => .ok none
  | .ok (some .null) => .ok none
  | .ok (some (.str s)) =>
    match parseDateTime s with
    | some t => .ok (some t)
    | none => .error ("invalid timestamp for field " ++ name)
  | .ok (some _) => .error ("invalid type for field " ++ name)

/-- Optional nested-struct field: absent or `null` is `none`, otherwise the
nested deserializer runs on the value. -/
def optNested {α : Type} (sub : Json → Except String α)
    (fields : List (String × Json)) (name : String) :
    Except String (Option α) :=
  match getField fields name with
  | .error e => .error e
  | .ok none => .ok none
  | .ok (some .null) => .ok none
  | .ok (some j) => (sub j).map some

/-- Required nested-struct field. -/
def reqNested {α : Type} (sub : Json → Except String α)
    (fields : List (String × Json)) (name : String) :
    Except String α :=
  match getField fields name with
  | .error e => .error e
  | .ok none => .error ("missing field " ++ name)
  | .ok (some j) => sub j

def Thumbnail.fromJson : Json → Except String Thumbnail
  | .obj fields =>
    match reqStr fields "url", optU64 fields "width", optU64 fields "height" with
    | .ok url, .ok width, .ok height => .ok ⟨url, width, height⟩
    | .error e, _, _ => .error e
    | _, .error e, _ => .error e
    | _, _, .error e => .error e
  | _ => .error "invalid type: expected struct Thumbnail"

def Thumbnails.fromJson : Json → Except String Thumbnails
  | .obj fields =>
    match optNested Thumbnail.fromJson fields "default",
        optNested Thumbnail.fromJson fields "medium",
        optNested Thumbnail.fromJson fields "high",
        optNested Thumbnail.fromJson fields "standard",
        optNested Thumbnail.fromJson fields "maxres" with
    | .ok d, .ok m, .ok h, .ok s, .ok x => .ok ⟨d, m, h, s, x⟩
    | .error e, _, _, _, _ => .error e
    | _, .error e, _, _, _ => .error e
    | _, _, .error e, _, _ => .error e
    | _, _, _, .error e, _ => .error e
    | _, _, _, _, .error e => .error e
  | _ => .error "invalid type: expected struct Thumbnails"

def Snippet.fromJson : Json → Except String Snippet
  | .obj fields =>
    match optDateTime fields "publishedAt", optStr fields "channelId",
        optStr fields "title", optStr fields "description",
        optNested Thumbnails.fromJson fields "thumbnails",
        optStr fields "channelTitle", optStr fields "categoryId",
        optStr fields "liveBroadcastContent" with
    | .ok pa, .ok ci, .ok ti, .ok de, .ok th, .ok ct, .ok cat, .ok lb =>
      .ok ⟨pa, ci, ti, de, th, ct, cat, lb⟩
    | .error e, _, _, _, _, _, _, _ => .error e
    | _, .error e, _, _, _, _, _, _ => .error e
    | _, _, .error e, _, _, _, _, _ => .error e
    | _, _, _, .error e, _, _, _, _ => .error e
    | _, _, _, _, .error e, _, _, _ => .error e
    | _, _, _, _, _, .error e, _, _ => .error e
    | _, _, _, _, _, _, .error e, _ => .error e
    | _, _, _, _, _, _, _, .error e => .error e
  | _ => .error "invalid type: expected struct Snippet"

def ContentDetails.fromJson : Json → Except String ContentDetails
  | .obj fields =>
    match optStr fields "duration", optStr fields "dimension",
        optStr fields "definition" with
    | .ok du, .ok di, .ok de => .ok ⟨du, di, de⟩
    | .error e, _, _ => .error e
    | _, .error e, _ => .error e
    | _, _, .error e => .error e
  | _ => .error "invalid type: expected struct ContentDetails"

def PageInfo.fromJson : Json → Except String PageInfo
  | .obj fields =>
    match reqI64 fields "totalResults", reqI64 fields "resultsPerPage" with
    | .ok tr, .ok rp => .ok ⟨tr, rp⟩
    | .error e, _ => .error e
    | _, .error e => .error e
  | _ => .error "invalid type: expected struct PageInfo"

def VideoResult.fromJson : Json → Except String VideoResult
  | .obj fields =>
    match reqStr fields "kind", reqStr fields "etag", reqStr fields "id",
        reqNested Snippet.fromJson fields "snippet",
        reqNested ContentDetails.fromJson fields "contentDetails" with
    | .ok kind, .ok etag, .ok id, .ok sn, .ok cd => .ok ⟨kind, etag, id, sn, cd⟩
    | .error e, _, _, _, _ => .error e
    | _, .error e, _, _, _ => .error e
    | _, _, .error e, _, _ => .error e
    | _, _, _, .error e, _ => .error e
    | _, _, _, _, .error e => .error e
  | _ => .error "invalid type: expected struct VideoResult"

/-- Element-wise deserialization of a `Vec<VideoResult>`, stopping at the
first failing element. -/
def parseItems : List Json → Except String (List VideoResult)
  | [] => .ok []
  | j :: rest =>
    match VideoResult.fromJson j, parseItems rest with
    | .ok v, .ok vs => .ok (v :: vs)
    | .error e, _ => .error e
    | _, .error e => .error e

/-- Required `Vec<VideoResult>` field. -/
def reqItems (fields : List (String × Json)) (name : String) :
    Except String (List VideoResult) :=
  match getField fields name with
  | .error e => .error e
  | .ok none => .error ("missing field " ++ name)
  | .ok (some (.arr l)) => parseItems l
  | .ok (some _) => .error ("invalid type for field " ++ name)

def Response.fromJson : Json → Except String Response
  | .obj fields =>
    match reqStr fields "kind", reqStr fields "etag",
        optStr fields "nextPageToken", optStr fields "prevPageToken",
        reqNested PageInfo.fromJson fields "pageInfo",
        reqItems fields "items" with
    | .ok kind, .ok etag, .ok np, .ok pp, .ok pi, .ok its =>
      .ok ⟨kind, etag, np, pp, pi, its⟩
    | .error e, _, _, _, _, _ => .error e
    | _, .error e, _, _, _, _ => .error e
    | _, _, .error e, _, _, _ => .error e
    | _, _, _, .error e, _, _ => .error e
    | _, _, _, _, .error e, _ => .error e
    | _, _, _, _, _, .error e => .error e
  | _ => .error "invalid type: expected struct Response"

/-! ### JSON text parsing (model of the serde_json lexer/parser)

`serde_json::from_str` first demands that the body be syntactically valid
JSON with nothing but whitespace after the value.  The grammar is embedded
below with a fuel parameter for termination; numbers are modelled as
integers (every numeric field of the schema is an integer type, so the
model restricts the numeric grammar accordingly). -/

def isWsChar (c : Char) : Bool :=
  let n := c.toNat
  n == 32 || n == 9 || n == 10 || n == 13

def dropWs (cs : List Char) : List Char :=
  cs.dropWhile isWsChar

def hexDigitVal (c : Char) : Option Nat :=
  let n := c.toNat
  if 48 ≤ n && n ≤ 57 then some (n - 48)
  else if 97 ≤ n && n ≤ 102 then some (n - 87)
  else if 65 ≤ n && n ≤ 70 then some (n - 55)
  else none

def unescapeChar (c : Char) : Option Char :=
  match c.toNat with
  | 34 => some c
  | 92 => some c
  | 47 => some c
  | 98 => some (Char.ofNat 8)
  | 102 => some (Char.ofNat 12)
  | 110 => some (Char.ofNat 10)
  | 114 => some (Char.ofNat 13)
  | 116 => some (Char.ofNat 9)
  | _ => none

/-- Consume a string literal body up to and including the closing quote,
returning the decoded characters and the remaining input. -/
def jsonStringRest : List Char → Except String (List Char × List Char)
  | [] => .error "unterminated string literal"
  | '"' :: rest => .ok ([], rest)
  | '\\' :: 'u' :: a :: b :: c :: d :: rest =>
    match hexDigitVal a, hexDigitVal b, hexDigitVal c, hexDigitVal d with
    | some va, some vb, some vc, some vd =>
      match jsonStringRest rest with
      | .ok (body, r) =>
        .ok (Char.ofNat (((va * 16 + vb) * 16 + vc) * 16 + vd) :: body, r)
      | .error e => .error e
    | _, _, _, _ => .error "invalid unicode escape"
  | '\\' :: e :: rest =>
    match unescapeChar e with
    | some ch =>
      match jsonStringRest rest with
      | .ok (body, r) => .ok (ch :: body, r)
      | .error er => .error er
    | none => .error "invalid escape character"
  | c :: rest =>
    match jsonStringRest rest with
    | .ok (body, r) => .ok (c :: body, r)
    | .error e => .error e

def digitsToNat (ds : List Char) : Nat :=
  ds.foldl (fun acc c => 10 * acc + (c.toNat - 48)) 0

mutual

def parseJsonValue : Nat → List Char → Except String (Json × List Char)
  | 0, _ => .error "recursion limit exceeded"
  | fuel + 1, cs =>
    match dropWs cs with
    | 'n' :: 'u' :: 'l' :: 'l' :: rest => .ok (.null, rest)
    | 't' :: 'r' :: 'u' :: 'e' :: rest => .ok (.bool true, rest)
    | 'f' :: 'a' :: 'l' :: 's' :: 'e' :: rest => .ok (.bool false, rest)
    | '"' :: rest =>
      match jsonStringRest rest with
      | .ok (body, r) => .ok (.str (String.mk body), r)
      | .error e => .error e
    | '[' :: rest =>
      match dropWs rest with
      | ']' :: r => .ok (.arr [], r)
      | other =>
        match parseArrayRest fuel other with
        | .ok (elems, r) => .ok (.arr elems, r)
        | .error e => .error e
    | '{' :: rest =>
      match dropWs rest with
      | '}' :: r => .ok (.obj [], r)
      | other =>
        match parseObjectRest fuel other with
        | .ok (members, r) => .ok (.obj members, r)
        | .error e => .error e
    | '-' :: rest =>
      match rest.span isDigitChar with
      | ([], _) => .error "expected digits after minus sign"
      | (ds, r) => .ok (.num (-(digitsToNat ds : Int)), r)
    | c :: rest =>
      if isDigitChar c then
        match rest.span isDigitChar with
        | (ds, r) => .ok (.num (digitsToNat (c :: ds)), r)
      else .error "unexpected character"
    | [] => .error "unexpected end of input"

/-- Elements of a nonempty array, after the opening bracket. -/
def parseArrayRest : Nat → List Char → Except String (List Json × List Char)
  | 0, _ => .error "recursion limit exceeded"
  | fuel + 1, cs =>
    match parseJsonValue fuel cs with
    | .error e => .error e
    | .ok (v, rest) =>
      match dropWs rest with
      | ',' :: rest2 =>
        match parseArrayRest fuel rest2 with
        | .ok (vs, r) => .ok (v :: vs, r)
        | .error e => .error e
      | ']' :: rest2 => .ok ([v], rest2)
      | _ => .error "expected comma or closing bracket"

/-- Members of a nonempty object, after the opening brace. -/
def parseObjectRest : Nat → List Char → Except String (List (String × Json) × List Char)
  | 0, _ => .error "recursion limit exceeded"
  | fuel + 1, cs =>
    match dropWs cs with
    | '"' :: rest =>
      match jsonStringRest rest with
      | .error e => .error e
      | .ok (keyChars, rest2) =>
        match dropWs rest2 with
        | ':' :: rest3 =>
          match parseJsonValue fuel rest3 with
          | .error e => .error e
          | .ok (v, rest4) =>
            match dropWs rest4 with
            | ',' :: rest5 =>
              match parseObjectRest fuel rest5 with
              | .ok (ms, r) => .ok ((String.mk keyChars, v) :: ms, r)
              | .error e => .error e
            | '}' :: rest5 => .ok ([(String.mk keyChars, v)], rest5)
            | _ => .error "expected comma or closing brace"
        | _ => .error "expected colon"
    | _ => .error "expected object key"

end

/-- Syntactic JSON parse of a whole body: one value, then only trailing
whitespace. -/
def jsonParse (s : String) : Except String Json :=
  match parseJsonValue (s.length + 1) s.data with
  | .error e => .error e
  | .ok (v, rest) =>
    match dropWs rest with
    | [] => .ok v
    | _ => .error "trailing characters"

/-- Model of `serde_json::from_str::<Response>`: parse the text, then
deserialize the `Response` tree. -/
def serdeFromStr (s : String) : Except String Response :=
  match jsonParse s with
  | .error e => .error e
  | .ok j => Response.fromJson j

/-! ### The error taxonomy and the deferred executor

```rust
pub enum Error {
    Connection { string: String },
    Deserialization { string: String, source: serde_json::Error },
    Serialization { source: serde_urlencoded::ser::Error },
}
```

External diagnostics (`serde_json::Error`, `serde_urlencoded::ser::Error`)
are carried as their message strings. -/

inductive Error where
  | Connection (string : String)
  | Deserialization (string : String) (source : String)
  | Serialization (source : String)
deriving DecidableEq, Repr

/-- Embedding of `impl From<surf::Error> for Error`: the transport error,
stringified, becomes a `Connection` error. -/
def errorFromSurf (message : String) : Error :=
  .Connection message

/-- The abstract transport: for each URL, how many additional polls the
response takes to arrive (`latency`) and what it finally is (`result`:
a transport failure message, or the body text received). -/
structure World where
  latency : String → Nat
  result : String → Except String String

/-- The constant `Videos::URL`. -/
def videosUrl : String := "https://www.googleapis.com/youtube/v3/videos"

/-- The full request URL built by the async block:
`format!("{}?{}", Self::URL, serde_urlencoded::to_string(&data)?)`. -/
def requestUrlOf (d : VideosData) : String :=
  videosUrl ++ "?" ++ d.queryString

/-- What the async block evaluates to once the transport round trip for
`url` finishes: `surf::get(&url).recv_string().await?` then
`serde_json::from_str(&response).with_context(…)`. -/
def finishRequest (w : World) (url : String) : Except Error Response :=
  match w.result url with
  | .error msg => .error (errorFromSurf msg)
  | .ok body =>
    match serdeFromStr body with
    | .error diag => .error (.Deserialization body diag)
    | .ok r => .ok r

deriving instance DecidableEq for Except

/-- The stored `BoxFuture`: either still awaiting the transport (the GET
has been issued; `elapsed` polls have happened since), or already
completed with its output. -/
inductive FutureState where
  | waiting (url : String) (elapsed : Nat)
  | done (r : Except Error Response)
deriving DecidableEq, Repr

/-- The result of one `poll` call as seen by the caller. -/
inductive PollOut where
  | pending
  | ready (r : Except Error Response)
deriving DecidableEq, Repr

/-- One poll of an in-flight transport wait. -/
def stepWaiting (w : World) (url : String) (elapsed : Nat) :
    FutureState × PollOut :=
  if w.latency url ≤ elapsed then
    let r := finishRequest w url
    (.done r, .ready r)
  else (.waiting url (elapsed + 1), .pending)

/-- Embedding of `pub struct Videos`: an optional stored `BoxFuture` and an
optional stored `VideosData`. -/
structure Videos where
  future : Option FutureState
  data : Option VideosData
deriving DecidableEq, Repr

/-- Embedding of `Videos::new`: no future yet, the fixed parts, no id. -/
def Videos.new (key : String) : Videos :=
  ⟨none, some ⟨key, "snippet,contentDetails", none⟩⟩

/-- Embedding of `Videos::id`: `self.data.take().unwrap()` then set the id.
A `none` result models the `unwrap` panic when the configuration was
already consumed. -/
def Videos.id (v : Videos) (i : String) : Option Videos :=
  match v.data with
  | none => none
  | some d => some ⟨v.future, some { d with id := some i }⟩

/-- Embedding of `<Videos as Future>::poll`, returning the updated state,
the poll outcome, and the number of HTTP GETs issued during this call; a
`none` result models a panic (`self.data.take().unwrap()` with no stored
data, or polling the boxed future again after it completed). -/
def Videos.poll : Videos → World → Option (Videos × PollOut × Nat)
  | ⟨some (.waiting url elapsed), dat⟩, w =>
    match stepWaiting w url elapsed with
    | (st, out) => some (⟨some st, dat⟩, out, 0)
  | ⟨some (.done _), _⟩, _ => none
  | ⟨none, none⟩, _ => none
  | ⟨none, some d⟩, w =>
    match d.encode with
    | .error e =>
      some (⟨some (.done (.error (.Serialization e))), none⟩,
        .ready (.error (.Serialization e)), 0)
    | .ok q =>
      match stepWaiting w (videosUrl ++ "?" ++ q) 0 with
      | (st, out) => some (⟨some st, none⟩, out, 1)

/-- Iterate `poll` `n` times, returning the final state and the total
number of HTTP GETs issued across them; a `none` result models a panic in
some poll. -/
def Videos.pollN : Videos → World → Nat → Option (Videos × Nat)
  | v, _, 0 => some (v, 0)
  | v, w, n + 1 =>
    match v.poll w with
    | none => none
    | some (v2, _, g) =>
      match Videos.pollN v2 w n with
      | none => none
      | some (v3, g2) => some (v3, g + g2)

/-! ### `VideoLocation` and its custom serializer -/

/-- An `f32` value, embedded as the dyadic rational `mantissa / 2 ^ exp2`
(every finite `f32` is such a value).  The crate only consumes it through
`Display`, modelled below. -/
structure F32 where
  mantissa : Int
  exp2 : Nat
deriving DecidableEq, Repr

/-- Strip up to `places` trailing zero digits from `v`, returning the
reduced value and remaining decimal places. -/
def stripTrailingZeros : Nat → Nat → Nat × Nat
  | v, 0 => (v, 0)
  | v, p + 1 => if v % 10 == 0 then stripTrailingZeros (v / 10) p else (v, p + 1)

def padZeros (s : String) (len : Nat) : String :=
  String.mk (List.replicate (len - s.length) '0') ++ s

/-- Rust's `Display` for `f32` prints the shortest decimal that round-trips;
for values whose exact decimal expansion is already shortest (such as 1.5),
that is the exact expansion, printed without a fractional part when the
value is an integer.  Modelled as exact decimal display of the dyadic:
`mantissa / 2^e = mantissa * 5^e / 10^e`. -/
def F32.display (x : F32) : String :=
  let (v, p) := stripTrailingZeros (x.mantissa.natAbs * 5 ^ x.exp2) x.exp2
  let sign := if x.mantissa < 0 then "-" else ""
  if p == 0 then sign ++ toString v
  else sign ++ toString (v / 10 ^ p) ++ "." ++ padZeros (toString (v % 10 ^ p)) p

/-- Embedding of `pub struct VideoLocation`, a longitude/latitude pair of
`f32` values. -/
structure VideoLocation where
  longitude : F32
  latitude : F32
deriving DecidableEq, Repr

/-- Embedding of `VideoLocation::new(longitude, latitude)`. -/
def VideoLocation.new (longitude latitude : F32) : VideoLocation :=
  ⟨longitude, latitude⟩

/-- The custom `Serialize` impl:
`serializer.serialize_str(&format!("{},{}", self.longitude, self.latitude))`. -/
def VideoLocation.serializeStr (v : VideoLocation) : String :=
  v.longitude.display ++ "," ++ v.latitude.display

/-! ### Spec-side field correspondence

The spec's round-trip property reads: a deserialized value "preserves every
present field and leaves every absent optional field as not present (not
defaulted to a sentinel)".  The following boolean relations state exactly
that, per field, directly against the document, independently of how the
deserializer computes. -/

/-- The document does not carry the field (or carries an explicit `null`). -/
def fieldAbsentOrNull (fields : List (String × Json)) (name : String) : Bool :=
  match getField fields name with
  | .ok none => true
  | .ok (some .null) => true
  | _ => false

/-- The document carries the field with exactly the string `s`. -/
def strFieldIs (fields : List (String × Json)) (name : String) (s : String) : Bool :=
  match getField fields name with
  | .ok (some (.str t)) => s == t
  | _ => false

/-- The document carries the field with exactly the integer `n`. -/
def numFieldIs (fields : List (String × Json)) (name : String) (n : Int) : Bool :=
  match getField fields name with
  | .ok (some (.num m)) => n == m
  | _ => false

/-- An optional string result reflects the document: present value kept
verbatim, absent field mapped to `none`. -/
def optStrAgrees (fields : List (String × Json)) (name : String) :
    Option String → Bool
  | none => fieldAbsentOrNull fields name
  | some s => strFieldIs fields name s

/-- An optional `u64` result reflects the document. -/
def optU64Agrees (fields : List (String × Json)) (name : String) :
    Option Nat → Bool
  | none => fieldAbsentOrNull fields name
  | some v => numFieldIs fields name (v : Int)

/-- An optional timestamp result keeps the document's text. -/
def optDateTimeAgrees (fields : List (String × Json)) (name : String) :
    Option DateTimeUtc → Bool
  | none => fieldAbsentOrNull fields name
  | some t => strFieldIs fields name t.raw && rfc3339Ok t.raw

/-- A nested value reflects the document's value for the field, per the
given relation. -/
def nestedAgrees {α : Type} (pres : Json → α → Bool)
    (fields : List (String × Json)) (name : String) (a : α) : Bool :=
  match getField fields name with
  | .ok (some j) => pres j a
  | _ => false

/-- An optional nested value reflects the document. -/
def optNestedAgrees {α : Type} (pres : Json → α → Bool)
    (fields : List (String × Json)) (name : String) :
    Option α → Bool
  | none => fieldAbsentOrNull fields name
  | some a => nestedAgrees pres fields name a

def Thumbnail.agrees (j : Json) (t : Thumbnail) : Bool :=
  match j with
  | .obj fs =>
    strFieldIs fs "url" t.url && optU64Agrees fs "width" t.width &&
      optU64Agrees fs "height" t.height
  | _ => false

def Thumbnails.agrees (j : Json) (t : Thumbnails) : Bool :=
  match j with
  | .obj fs =>
    optNestedAgrees Thumbnail.agrees fs "default" t.default &&
      optNestedAgrees Thumbnail.agrees fs "medium" t.medium &&
      optNestedAgrees Thumbnail.agrees fs "high" t.high &&
      optNestedAgrees Thumbnail.agrees fs "standard" t.standard &&
      optNestedAgrees Thumbnail.agrees fs "maxres" t.maxres
  | _ => false

def Snippet.agrees (j : Json) (s : Snippet) : Bool :=
  match j with
  | .obj fs =>
    optDateTimeAgrees fs "publishedAt" s.publishedAt &&
      optStrAgrees fs "channelId" s.channelId &&
      optStrAgrees fs "title" s.title &&
      optStrAgrees fs "description" s.description &&
      optNestedAgrees Thumbnails.agrees fs "thumbnails" s.thumbnails &&
      optStrAgrees fs "channelTitle" s.channelTitle &&
      optStrAgrees fs "categoryId" s.categoryId &&
      optStrAgrees fs "liveBroadcastContent" s.liveBroadcastContent
  | _ => false

def ContentDetails.agrees (j : Json) (c : ContentDetails) : Bool :=
  match j with
  | .obj fs =>
    optStrAgrees fs "duration" c.duration &&
      optStrAgrees fs "dimension" c.dimension &&
      optStrAgrees fs "definition" c.definition
  | _ => false

def PageInfo.agrees (j : Json) (p : PageInfo) : Bool :=
  match j with
  | .obj fs =>
    numFieldIs fs "totalResults" p.totalResults &&
      numFieldIs fs "resultsPerPage" p.resultsPerPage
  | _ => false

def VideoResult.agrees (j : Json) (v : VideoResult) : Bool :=
  match j with
  | .obj fs =>
    strFieldIs fs "kind" v.kind && strFieldIs fs "etag" v.etag &&
      strFieldIs fs "id" v.id &&
      nestedAgrees Snippet.agrees fs "snippet" v.snippet &&
      nestedAgrees ContentDetails.agrees fs "contentDetails" v.contentDetails
  | _ => false

/-- The document field holds an array of the same length whose elements
pairwise agree with the deserialized items (server order preserved). -/
def itemsAgree (fields : List (String × Json)) (name : String)
    (items : List VideoResult) : Bool :=
  match getField fields name with
  | .ok (some (.arr l)) =>
    l.length == items.length &&
      (l.zip items).all (fun p => VideoResult.agrees p.1 p.2)
  | _ => false

def Response.agrees (j : Json) (r : Response) : Bool :=
  match j with
  | .obj fs =>
    strFieldIs fs "kind" r.kind && strFieldIs fs "etag" r.etag &&
      optStrAgrees fs "nextPageToken" r.nextPageToken &&
      optStrAgrees fs "prevPageToken" r.prevPageToken &&
      nestedAgrees PageInfo.agrees fs "pageInfo" r.pageInfo &&
      itemsAgree fs "items" r.items
  | _ => false

/-- A name truly absent from an object's entry list. -/
def missingField (fields : List (String × Json)) (name : String) : Prop :=
  ∀ p ∈ fields, p.1 ≠ name

instance (fields : List (String × Json)) (name : String) :
    Decidable (missingField fields name) :=
  List.decidableBAll (fun (p : String × Json) => p.1 ≠ name) fields

/-! ### Deserializer soundness: every successful parse agrees with the
document, field by field -/


theorem except_error_of_never_ok {ε α : Type} {x : Except ε α}
    (h : ∀ a, x ≠ .ok a) : ∃ e, x = .error e := by
  rcases x with e | a
  · exact ⟨e, rfl⟩
  · exact absurd rfl (h a)

theorem reqStr_agrees {fs : List (String × Json)} {n : String} {s : String}
    (h : reqStr fs n = .ok s) : strFieldIs fs n s = true := by
  unfold reqStr at h
  split at h <;> try exact Except.noConfusion h
  next heq =>
    injection h with h2
    subst h2
    simp [strFieldIs, heq]

theorem optStr_agrees {fs : List (String × Json)} {n : String} {o : Option String}
    (h : optStr fs n = .ok o) : optStrAgrees fs n o = true := by
  unfold optStr at h
  split at h <;> try exact Except.noConfusion h
  case _ heq =>
    injection h with h2; subst h2
    simp [optStrAgrees, fieldAbsentOrNull, heq]
  case _ heq =>
    injection h with h2; subst h2
    simp [optStrAgrees, fieldAbsentOrNull, heq]
  case _ heq =>
    injection h with h2; subst h2
    simp [optStrAgrees, strFieldIs, heq]

theorem reqI64_agrees {fs : List (String × Json)} {n : String} {v : Int}
    (h : reqI64 fs n = .ok v) : numFieldIs fs n v = true := by
  unfold reqI64 at h
  split at h <;> try exact Except.noConfusion h
  next heq =>
    split at h
    · injection h with h2; subst h2
      simp [numFieldIs, heq]
    · exact Except.noConfusion h

theorem optU64_agrees {fs : List (String × Json)} {n : String} {o : Option Nat}
    (h : optU64 fs n = .ok o) : optU64Agrees fs n o = true := by
  unfold optU64 at h
  split at h <;> try exact Except.noConfusion h
  case _ heq =>
    injection h with h2; subst h2
    simp [optU64Agrees, fieldAbsentOrNull, heq]
  case _ heq =>
    injection h with h2; subst h2
    simp [optU64Agrees, fieldAbsentOrNull, heq]
  case _ m heq =>
    split at h
    · next hrange =>
      injection h with h2; subst h2
      simp [optU64Agrees, numFieldIs, heq, Int.toNat_of_nonneg hrange.1]
    · exact Except.noConfusion h

theorem optDateTime_agrees {fs : List (String × Json)} {n : String}
    {o : Option DateTimeUtc}
    (h : optDateTime fs n = .ok o) : optDateTimeAgrees fs n o = true := by
  unfold optDateTime at h
  split at h <;> try exact Except.noConfusion h
  case _ heq =>
    injection h with h2; subst h2
    simp [optDateTimeAgrees, fieldAbsentOrNull, heq]
  case _ heq =>
    injection h with h2; subst h2
    simp [optDateTimeAgrees, fieldAbsentOrNull, heq]
  case _ s heq =>
    split at h <;> try exact Except.noConfusion h
    next t hparse =>
      injection h with h2; subst h2
      unfold parseDateTime at hparse
      split at hparse <;> try exact Option.noConfusion hparse
      next hok =>
        injection hparse with h3; subst h3
        simp [optDateTimeAgrees, strFieldIs, heq, hok]

theorem reqNested_agrees {α : Type} {sub : Json → Except String α}
    {pres : Json → α → Bool}
    (sound : ∀ j a, sub j = .ok a → pres j a = true)
    {fs : List (String × Json)} {n : String} {a : α}
    (h : reqNested sub fs n = .ok a) : nestedAgrees pres fs n a = true := by
  unfold reqNested at h
  split at h <;> try exact Except.noConfusion h
  next j heq =>
    simp [nestedAgrees, heq, sound _ _ h]

theorem optNested_agrees {α : Type} {sub : Json → Except String α}
    {pres : Json → α → Bool}
    (sound : ∀ j a, sub j = .ok a → pres j a = true)
    {fs : List (String × Json)} {n : String} {o : Option α}
    (h : optNested sub fs n = .ok o) : optNestedAgrees pres fs n o = true := by
  unfold optNested at h
  split at h <;> try exact Except.noConfusion h
  case _ heq =>
    injection h with h2; subst h2
    simp [optNestedAgrees, fieldAbsentOrNull, heq]
  case _ heq =>
    injection h with h2; subst h2
    simp [optNestedAgrees, fieldAbsentOrNull, heq]
  case _ j hne heq =>
    cases hs : sub j with
    | error e => rw [hs] at h; exact Except.noConfusion h
    | ok a2 =>
      rw [hs] at h
      injection h with h2
      subst h2
      simp [optNestedAgrees, nestedAgrees, heq, sound _ _ hs]



theorem thumbnail_fromJson_agrees : ∀ (j : Json) (t : Thumbnail),
    Thumbnail.fromJson j = .ok t → Thumbnail.agrees j t = true := by
  intro j t h
  cases j <;> try exact Except.noConfusion h
  case obj fs =>
    simp only [Thumbnail.fromJson] at h
    split at h <;> try exact Except.noConfusion h
    rename_i hurl hw hh
    injection h with h2
    subst h2
    simp [Thumbnail.agrees, reqStr_agrees hurl, optU64_agrees hw,
      optU64_agrees hh]

theorem thumbnails_fromJson_agrees : ∀ (j : Json) (t : Thumbnails),
    Thumbnails.fromJson j = .ok t → Thumbnails.agrees j t = true := by
  intro j t h
  cases j <;> try exact Except.noConfusion h
  case obj fs =>
    simp only [Thumbnails.fromJson] at h
    split at h <;> try exact Except.noConfusion h
    rename_i h1 h2 h3 h4 h5
    injection h with hv
    subst hv
    simp [Thumbnails.agrees,
      optNested_agrees thumbnail_fromJson_agrees h1,
      optNested_agrees thumbnail_fromJson_agrees h2,
      optNested_agrees thumbnail_fromJson_agrees h3,
      optNested_agrees thumbnail_fromJson_agrees h4,
      optNested_agrees thumbnail_fromJson_agrees h5]

theorem snippet_fromJson_agrees : ∀ (j : Json) (s : Snippet),
    Snippet.fromJson j = .ok s → Snippet.agrees j s = true := by
  intro j s h
  cases j <;> try exact Except.noConfusion h
  case obj fs =>
    simp only [Snippet.fromJson] at h
    split at h <;> try exact Except.noConfusion h
    rename_i h1 h2 h3 h4 h5 h6 h7 h8
    injection h with hv
    subst hv
    simp [Snippet.agrees, optDateTime_agrees h1, optStr_agrees h2,
      optStr_agrees h3, optStr_agrees h4,
      optNested_agrees thumbnails_fromJson_agrees h5,
      optStr_agrees h6, optStr_agrees h7, optStr_agrees h8]

theorem contentDetails_fromJson_agrees : ∀ (j : Json) (c : ContentDetails),
    ContentDetails.fromJson j = .ok c → ContentDetails.agrees j c = true := by
  intro j c h
  cases j <;> try exact Except.noConfusion h
  case obj fs =>
    simp only [ContentDetails.fromJson] at h
    split at h <;> try exact Except.noConfusion h
    rename_i h1 h2 h3
    injection h with hv
    subst hv
    simp [ContentDetails.agrees, optStr_agrees h1, optStr_agrees h2,
      optStr_agrees h3]

theorem pageInfo_fromJson_agrees : ∀ (j : Json) (p : PageInfo),
    PageInfo.fromJson j = .ok p → PageInfo.agrees j p = true := by
  intro j p h
  cases j <;> try exact Except.noConfusion h
  case obj fs =>
    simp only [PageInfo.fromJson] at h
    split at h <;> try exact Except.noConfusion h
    rename_i h1 h2
    injection h with hv
    subst hv
    simp [PageInfo.agrees, reqI64_agrees h1, reqI64_agrees h2]

theorem videoResult_fromJson_agrees : ∀ (j : Json) (v : VideoResult),
    VideoResult.fromJson j = .ok v → VideoResult.agrees j v = true := by
  intro j v h
  cases j <;> try exact Except.noConfusion h
  case obj fs =>
    simp only [VideoResult.fromJson] at h
    split at h <;> try exact Except.noConfusion h
    rename_i h1 h2 h3 h4 h5
    injection h with hv
    subst hv
    simp [VideoResult.agrees, reqStr_agrees h1, reqStr_agrees h2,
      reqStr_agrees h3,
      reqNested_agrees snippet_fromJson_agrees h4,
      reqNested_agrees contentDetails_fromJson_agrees h5]

theorem parseItems_ok : ∀ (l : List Json) (vs : List VideoResult),
    parseItems l = .ok vs →
    l.length = vs.length ∧
      ∀ p ∈ l.zip vs, VideoResult.fromJson p.1 = .ok p.2 := by
  intro l
  induction l with
  | nil =>
    intro vs h
    injection h with hv
    subst hv
    simp
  | cons j rest ih =>
    intro vs h
    simp only [parseItems] at h
    split at h <;> try exact Except.noConfusion h
    rename_i hj hrest
    injection h with hv
    subst hv
    obtain ⟨hlen, hall⟩ := ih _ hrest
    refine ⟨by simp [hlen], ?_⟩
    intro p hp
    rcases List.mem_cons.mp hp with hp1 | hp2
    · subst hp1; exact hj
    · exact hall p hp2

theorem reqItems_agrees {fs : List (String × Json)} {n : String}
    {vs : List VideoResult}
    (h : reqItems fs n = .ok vs) : itemsAgree fs n vs = true := by
  unfold reqItems at h
  split at h <;> try exact Except.noConfusion h
  rename_i l heq
  obtain ⟨hlen, hall⟩ := parseItems_ok l vs h
  simp only [itemsAgree, heq]
  refine (Bool.and_eq_true _ _).mpr ⟨by simp [hlen], ?_⟩
  refine List.all_eq_true.mpr ?_
  intro p hp
  exact videoResult_fromJson_agrees p.1 p.2 (hall p hp)

theorem response_fromJson_agrees : ∀ (j : Json) (r : Response),
    Response.fromJson j = .ok r → Response.agrees j r = true := by
  intro j r h
  cases j <;> try exact Except.noConfusion h
  case obj fs =>
    simp only [Response.fromJson] at h
    split at h <;> try exact Except.noConfusion h
    rename_i h1 h2 h3 h4 h5 h6
    injection h with hv
    subst hv
    simp [Response.agrees, reqStr_agrees h1, reqStr_agrees h2,
      optStr_agrees h3, optStr_agrees h4,
      reqNested_agrees pageInfo_fromJson_agrees h5,
      reqItems_agrees h6]


/-! ### Inversion of successful parses, and missing-field failures -/


theorem response_fromJson_ok_inv {fs : List (String × Json)} {r : Response}
    (h : Response.fromJson (.obj fs) = .ok r) :
    reqStr fs "kind" = .ok r.kind ∧ reqStr fs "etag" = .ok r.etag ∧
    optStr fs "nextPageToken" = .ok r.nextPageToken ∧
    optStr fs "prevPageToken" = .ok r.prevPageToken ∧
    reqNested PageInfo.fromJson fs "pageInfo" = .ok r.pageInfo ∧
    reqItems fs "items" = .ok r.items := by
  simp only [Response.fromJson] at h
  split at h <;> try exact Except.noConfusion h
  rename_i h1 h2 h3 h4 h5 h6
  injection h with hv
  subst hv
  exact ⟨h1, h2, h3, h4, h5, h6⟩

theorem videoResult_fromJson_ok_inv {fs : List (String × Json)} {v : VideoResult}
    (h : VideoResult.fromJson (.obj fs) = .ok v) :
    reqStr fs "kind" = .ok v.kind ∧ reqStr fs "etag" = .ok v.etag ∧
    reqStr fs "id" = .ok v.id ∧
    reqNested Snippet.fromJson fs "snippet" = .ok v.snippet ∧
    reqNested ContentDetails.fromJson fs "contentDetails" = .ok v.contentDetails := by
  simp only [VideoResult.fromJson] at h
  split at h <;> try exact Except.noConfusion h
  rename_i h1 h2 h3 h4 h5
  injection h with hv
  subst hv
  exact ⟨h1, h2, h3, h4, h5⟩

theorem thumbnail_fromJson_ok_inv {fs : List (String × Json)} {t : Thumbnail}
    (h : Thumbnail.fromJson (.obj fs) = .ok t) :
    reqStr fs "url" = .ok t.url ∧ optU64 fs "width" = .ok t.width ∧
    optU64 fs "height" = .ok t.height := by
  simp only [Thumbnail.fromJson] at h
  split at h <;> try exact Except.noConfusion h
  rename_i h1 h2 h3
  injection h with hv
  subst hv
  exact ⟨h1, h2, h3⟩

theorem thumbnails_fromJson_ok_inv {fs : List (String × Json)} {t : Thumbnails}
    (h : Thumbnails.fromJson (.obj fs) = .ok t) :
    optNested Thumbnail.fromJson fs "default" = .ok t.default := by
  simp only [Thumbnails.fromJson] at h
  split at h <;> try exact Except.noConfusion h
  rename_i h1 h2 h3 h4 h5
  injection h with hv
  subst hv
  exact h1

theorem getField_missing {fs : List (String × Json)} {n : String}
    (h : missingField fs n) : getField fs n = .ok none := by
  unfold getField
  have hf : fs.filter (fun p => p.1 == n) = [] := by
    refine List.filter_eq_nil_iff.mpr ?_
    intro p hp
    simpa using h p hp
  rw [hf]

theorem reqStr_missing {fs : List (String × Json)} {n : String}
    (h : missingField fs n) :
    reqStr fs n = .error ("missing field " ++ n) := by
  simp [reqStr, getField_missing h]

theorem reqNested_missing {α : Type} {sub : Json → Except String α}
    {fs : List (String × Json)} {n : String}
    (h : missingField fs n) :
    reqNested sub fs n = .error ("missing field " ++ n) := by
  simp [reqNested, getField_missing h]

theorem reqItems_missing {fs : List (String × Json)} {n : String}
    (h : missingField fs n) :
    reqItems fs n = .error ("missing field " ++ n) := by
  simp [reqItems, getField_missing h]

theorem parseItems_elem : ∀ (l : List Json) (vs : List VideoResult),
    parseItems l = .ok vs →
    ∀ x ∈ l, ∃ v, VideoResult.fromJson x = .ok v := by
  intro l
  induction l with
  | nil => intro vs _ x hx; cases hx
  | cons j rest ih =>
    intro vs h x hx
    simp only [parseItems] at h
    split at h <;> try exact Except.noConfusion h
    rename_i hj hrest
    rcases List.mem_cons.mp hx with hx1 | hx2
    · subst hx1; exact ⟨_, hj⟩
    · exact ih _ hrest x hx2


/-! ### The query encoding of a `VideosData` never fails -/


theorem formEncode_key : formEncode "key" = "key" := by decide

theorem formEncode_part : formEncode "part" = "part" := by decide

theorem formEncode_id : formEncode "id" = "id" := by decide

theorem VideosData.encode_ok : ∀ d : VideosData, d.encode = .ok d.queryString := by
  intro d
  cases h : d.id with
  | none =>
    simp [VideosData.encode, urlencodedToString, VideosData.serializeFields, h,
      serializePair, VideosData.queryString, VideosData.queryPairs,
      formEncode_key, formEncode_part, List.mapM.loop, Functor.map, Except.map, Bind.bind, Except.bind, Pure.pure, Except.pure]
  | some i =>
    simp [VideosData.encode, urlencodedToString, VideosData.serializeFields, h,
      serializePair, VideosData.queryString, VideosData.queryPairs,
      formEncode_key, formEncode_part, formEncode_id, List.mapM.loop,
      Functor.map, Except.map, Bind.bind, Except.bind, Pure.pure, Except.pure]


/-! ### Single-poll and iterated-poll behavior of the executor -/


theorem poll_fresh_done {d : VideosData} {w : World}
    (h : w.latency (requestUrlOf d) = 0) :
    Videos.poll ⟨none, some d⟩ w =
      some (⟨some (.done (finishRequest w (requestUrlOf d))), none⟩,
        .ready (finishRequest w (requestUrlOf d)), 1) := by
  have h2 : w.latency (videosUrl ++ "?" ++ d.queryString) = 0 := h
  simp [Videos.poll, VideosData.encode_ok d, stepWaiting, requestUrlOf, h2]

theorem poll_fresh_wait {d : VideosData} {w : World}
    (h : 0 < w.latency (requestUrlOf d)) :
    Videos.poll ⟨none, some d⟩ w =
      some (⟨some (.waiting (requestUrlOf d) 1), none⟩, .pending, 1) := by
  have h1 : 0 < w.latency (videosUrl ++ "?" ++ d.queryString) := h
  have h2 : ¬ w.latency (videosUrl ++ "?" ++ d.queryString) ≤ 0 := by omega
  simp [Videos.poll, VideosData.encode_ok d, stepWaiting, requestUrlOf, h2]

theorem poll_waiting_stay {w : World} {url : String} {e : Nat}
    (dat : Option VideosData) (h : ¬ w.latency url ≤ e) :
    Videos.poll ⟨some (.waiting url e), dat⟩ w =
      some (⟨some (.waiting url (e + 1)), dat⟩, .pending, 0) := by
  simp [Videos.poll, stepWaiting, h]

theorem poll_waiting_fire {w : World} {url : String} {e : Nat}
    (dat : Option VideosData) (h : w.latency url ≤ e) :
    Videos.poll ⟨some (.waiting url e), dat⟩ w =
      some (⟨some (.done (finishRequest w url)), dat⟩,
        .ready (finishRequest w url), 0) := by
  simp [Videos.poll, stepWaiting, h]

theorem poll_fresh_data {dat : Option VideosData} {w : World}
    {r : Videos × PollOut × Nat}
    (h : Videos.poll ⟨none, dat⟩ w = some r) : r.1.data = none := by
  cases dat with
  | none => exact Option.noConfusion h
  | some d =>
    cases he : d.encode with
    | error e =>
      simp only [Videos.poll, he] at h
      injection h with h2; subst h2; rfl
    | ok q =>
      simp only [Videos.poll, he] at h
      rcases hsw : stepWaiting w (videosUrl ++ "?" ++ q) 0 with ⟨st, out⟩
      rw [hsw] at h
      injection h with h2; subst h2; rfl

theorem poll_keep_data {st : FutureState} {dat : Option VideosData} {w : World}
    {r : Videos × PollOut × Nat}
    (h : Videos.poll ⟨some st, dat⟩ w = some r) : r.1.data = dat := by
  cases st with
  | done r2 => exact Option.noConfusion h
  | waiting url e =>
    simp only [Videos.poll] at h
    rcases hsw : stepWaiting w url e with ⟨st2, out⟩
    rw [hsw] at h
    injection h with h2; subst h2; rfl

theorem poll_started_no_get {st : FutureState} {dat : Option VideosData}
    {w : World} {r : Videos × PollOut × Nat}
    (h : Videos.poll ⟨some st, dat⟩ w = some r) : r.2.2 = 0 := by
  cases st with
  | done r2 => exact Option.noConfusion h
  | waiting url e =>
    simp only [Videos.poll] at h
    rcases hsw : stepWaiting w url e with ⟨st2, out⟩
    rw [hsw] at h
    injection h with h2; subst h2; rfl

theorem pollN_from_waiting (w : World) (url : String) (dat : Option VideosData) :
    ∀ (m e : Nat), e + m ≤ w.latency url →
    Videos.pollN ⟨some (.waiting url e), dat⟩ w m =
      some (⟨some (.waiting url (e + m)), dat⟩, 0) := by
  intro m
  induction m with
  | zero => intro e h; simp [Videos.pollN]
  | succ m ih =>
    intro e h
    have hst : ¬ w.latency url ≤ e := by omega
    simp only [Videos.pollN, poll_waiting_stay dat hst]
    rw [ih (e + 1) (by omega)]
    simp [show e + 1 + m = e + (m + 1) by omega]

theorem pollN_from_waiting_done (w : World) (url : String)
    (dat : Option VideosData) :
    ∀ (m e : Nat), e + m = w.latency url + 1 → e ≤ w.latency url →
    Videos.pollN ⟨some (.waiting url e), dat⟩ w m =
      some (⟨some (.done (finishRequest w url)), dat⟩, 0) := by
  intro m
  induction m with
  | zero => intro e h he; exact absurd h (by omega)
  | succ m ih =>
    intro e h he
    by_cases hf : w.latency url ≤ e
    · have hm : m = 0 := by omega
      subst hm
      simp [Videos.pollN, poll_waiting_fire dat hf]
    · simp only [Videos.pollN, poll_waiting_stay dat hf]
      rw [ih (e + 1) (by omega) (by omega)]

theorem pollN_one_get (d : VideosData) (w : World) :
    ∀ n, n ≤ w.latency (requestUrlOf d) →
    ∃ v, Videos.pollN ⟨none, some d⟩ w (n + 1) = some (v, 1) := by
  intro n h
  cases hL : w.latency (requestUrlOf d) with
  | zero =>
    have hn : n = 0 := by omega
    subst hn
    refine ⟨⟨some (.done (finishRequest w (requestUrlOf d))), none⟩, ?_⟩
    simp [Videos.pollN, poll_fresh_done hL]
  | succ L2 =>
    by_cases hn1 : 1 + n ≤ w.latency (requestUrlOf d)
    · refine ⟨⟨some (.waiting (requestUrlOf d) (1 + n)), none⟩, ?_⟩
      simp only [Videos.pollN, poll_fresh_wait (by omega : 0 < w.latency (requestUrlOf d))]
      rw [pollN_from_waiting w _ _ n 1 hn1]
    · refine ⟨⟨some (.done (finishRequest w (requestUrlOf d))), none⟩, ?_⟩
      simp only [Videos.pollN, poll_fresh_wait (by omega : 0 < w.latency (requestUrlOf d))]
      rw [pollN_from_waiting_done w _ _ n 1 (by omega) (by omega)]

theorem pollN_keeps_data_none (w : World) :
    ∀ (m : Nat) (v0 : Videos), v0.data = none →
    ∀ (v : Videos) (g : Nat), Videos.pollN v0 w m = some (v, g) →
    v.data = none := by
  intro m
  induction m with
  | zero =>
    intro v0 hv v g h
    simp only [Videos.pollN] at h
    injection h with h2
    have h3 : v0 = v := congrArg Prod.fst h2
    rw [← h3]
    exact hv
  | succ m ih =>
    intro v0 hv v g h
    simp only [Videos.pollN] at h
    split at h <;> try exact Option.noConfusion h
    rename_i v2 out2 g2 hp
    split at h <;> try exact Option.noConfusion h
    rename_i r2 v3 g3 hn
    injection h with h2
    have h3 : v3 = v := congrArg Prod.fst h2
    subst h3
    obtain ⟨fut0, dat0⟩ := v0
    cases fut0 with
    | none =>
      have hd : dat0 = none := hv
      subst hd
      exact Option.noConfusion hp
    | some st =>
      have hv2 : v2.data = none := by
        have hkeep := poll_keep_data hp
        have hd : dat0 = none := hv
        rw [hkeep]
        exact hd
      exact ih v2 hv2 v3 g3 hn

theorem pollN_data_none (d : VideosData) (w : World) :
    ∀ (n : Nat) (v : Videos) (g : Nat),
    Videos.pollN ⟨none, some d⟩ w (n + 1) = some (v, g) → v.data = none := by
  intro n v g h
  simp only [Videos.pollN] at h
  split at h <;> try exact Option.noConfusion h
  rename_i v2 out2 g2 hp
  split at h <;> try exact Option.noConfusion h
  rename_i r2 v3 g3 hn
  injection h with h2
  have h3 : v3 = v := congrArg Prod.fst h2
  subst h3
  have hv2 : v2.data = none := poll_fresh_data hp
  exact pollN_keeps_data_none w n v2 hv2 v3 g3 hn


/-! ### Error-branch helpers and GET accounting -/


theorem response_missing_required {fs : List (String × Json)}
    (h : missingField fs "kind" ∨ missingField fs "etag") :
    ∃ e, Response.fromJson (.obj fs) = .error e := by
  apply except_error_of_never_ok
  intro r hok
  obtain ⟨hk, he, _, _, _, _⟩ := response_fromJson_ok_inv hok
  rcases h with h | h
  · rw [reqStr_missing h] at hk; exact Except.noConfusion hk
  · rw [reqStr_missing h] at he; exact Except.noConfusion he

theorem videoResult_missing_required {fs : List (String × Json)}
    (h : missingField fs "kind" ∨ missingField fs "etag" ∨ missingField fs "id") :
    ∃ e, VideoResult.fromJson (.obj fs) = .error e := by
  apply except_error_of_never_ok
  intro v hok
  obtain ⟨hk, he, hid, _, _⟩ := videoResult_fromJson_ok_inv hok
  rcases h with h | h | h
  · rw [reqStr_missing h] at hk; exact Except.noConfusion hk
  · rw [reqStr_missing h] at he; exact Except.noConfusion he
  · rw [reqStr_missing h] at hid; exact Except.noConfusion hid

theorem response_item_missing {fs : List (String × Json)}
    {l : List Json} {gs : List (String × Json)}
    (hitems : getField fs "items" = .ok (some (.arr l)))
    (hmem : Json.obj gs ∈ l)
    (hbad : ∃ e, VideoResult.fromJson (.obj gs) = .error e) :
    ∃ e, Response.fromJson (.obj fs) = .error e := by
  apply except_error_of_never_ok
  intro r hok
  obtain ⟨_, _, _, _, _, hi⟩ := response_fromJson_ok_inv hok
  simp only [reqItems, hitems] at hi
  obtain ⟨v, hv⟩ := parseItems_elem l r.items hi (Json.obj gs) hmem
  obtain ⟨e, hbad⟩ := hbad
  rw [hbad] at hv
  exact Except.noConfusion hv

theorem response_missing_structs {fs : List (String × Json)}
    (h : missingField fs "pageInfo" ∨ missingField fs "items") :
    ∃ e, Response.fromJson (.obj fs) = .error e := by
  apply except_error_of_never_ok
  intro r hok
  obtain ⟨_, _, _, _, hp, hi⟩ := response_fromJson_ok_inv hok
  rcases h with h | h
  · rw [reqNested_missing h] at hp; exact Except.noConfusion hp
  · rw [reqItems_missing h] at hi; exact Except.noConfusion hi

theorem videoResult_missing_structs {fs : List (String × Json)}
    (h : missingField fs "snippet" ∨ missingField fs "contentDetails") :
    ∃ e, VideoResult.fromJson (.obj fs) = .error e := by
  apply except_error_of_never_ok
  intro v hok
  obtain ⟨_, _, _, hs, hc⟩ := videoResult_fromJson_ok_inv hok
  rcases h with h | h
  · rw [reqNested_missing h] at hs; exact Except.noConfusion hs
  · rw [reqNested_missing h] at hc; exact Except.noConfusion hc

theorem thumbnail_missing_url {fs : List (String × Json)}
    (h : missingField fs "url") :
    ∃ e, Thumbnail.fromJson (.obj fs) = .error e := by
  apply except_error_of_never_ok
  intro t hok
  obtain ⟨hu, _, _⟩ := thumbnail_fromJson_ok_inv hok
  rw [reqStr_missing h] at hu
  exact Except.noConfusion hu

theorem thumbnails_default_missing_url {fs gs : List (String × Json)}
    (hdef : getField fs "default" = .ok (some (.obj gs)))
    (h : missingField gs "url") :
    ∃ e, Thumbnails.fromJson (.obj fs) = .error e := by
  apply except_error_of_never_ok
  intro t hok
  have hd := thumbnails_fromJson_ok_inv hok
  simp only [optNested, hdef] at hd
  cases ht : Thumbnail.fromJson (.obj gs) with
  | error e => rw [ht] at hd; exact Except.noConfusion hd
  | ok th =>
    obtain ⟨hu, _, _⟩ := thumbnail_fromJson_ok_inv ht
    rw [reqStr_missing h] at hu
    exact Except.noConfusion hu

theorem serdeFromStr_error_of_fromJson {body : String}
    {fs : List (String × Json)} {e : String}
    (hj : jsonParse body = .ok (.obj fs))
    (he : Response.fromJson (.obj fs) = .error e) :
    serdeFromStr body = .error e := by
  simp [serdeFromStr, hj, he]

theorem finishRequest_deserialization {w : World} {url body : String} {e : String}
    (hw : w.result url = .ok body) (hs : serdeFromStr body = .error e) :
    finishRequest w url = .error (.Deserialization body e) := by
  simp [finishRequest, hw, hs]

theorem finishRequest_no_serialization (w : World) (url : String) (e : String) :
    finishRequest w url ≠ .error (.Serialization e) := by
  cases hr : w.result url with
  | error msg => simp [finishRequest, hr, errorFromSurf]
  | ok body =>
    cases hs : serdeFromStr body with
    | error diag => simp [finishRequest, hr, hs]
    | ok r => simp [finishRequest, hr, hs]

theorem poll_keep_future {st : FutureState} {dat : Option VideosData} {w : World}
    {r : Videos × PollOut × Nat}
    (h : Videos.poll ⟨some st, dat⟩ w = some r) :
    ∃ st2, r.1.future = some st2 := by
  cases st with
  | done r2 => exact Option.noConfusion h
  | waiting url e =>
    simp only [Videos.poll] at h
    rcases hsw : stepWaiting w url e with ⟨st2, out⟩
    rw [hsw] at h
    injection h with h2; subst h2
    exact ⟨st2, rfl⟩

theorem pollN_started_zero (w : World) :
    ∀ (m : Nat) (v0 : Videos) (st0 : FutureState), v0.future = some st0 →
    ∀ (v : Videos) (g : Nat), Videos.pollN v0 w m = some (v, g) → g = 0 := by
  intro m
  induction m with
  | zero =>
    intro v0 st0 hf v g h
    simp only [Videos.pollN] at h
    injection h with h2
    exact (congrArg Prod.snd h2).symm
  | succ m ih =>
    intro v0 st0 hf v g h
    simp only [Videos.pollN] at h
    split at h <;> try exact Option.noConfusion h
    rename_i v2 out2 g2 hp
    split at h <;> try exact Option.noConfusion h
    rename_i r2 v3 g3 hn
    injection h with h2
    have hg : g2 + g3 = g := congrArg Prod.snd h2
    obtain ⟨fut0, dat0⟩ := v0
    have hf2 : fut0 = some st0 := hf
    subst hf2
    have hg2 : g2 = 0 := poll_started_no_get hp
    obtain ⟨st2, hst2⟩ := poll_keep_future hp
    have hg3 : g3 = 0 := ih v2 st2 hst2 v3 g3 hn
    omega

theorem pollN_gets_one (d : VideosData) (w : World) :
    ∀ (n : Nat) (v : Videos) (g : Nat),
    Videos.pollN ⟨none, some d⟩ w (n + 1) = some (v, g) → g = 1 := by
  intro n v g h
  simp only [Videos.pollN] at h
  split at h <;> try exact Option.noConfusion h
  rename_i v2 out2 g2 hp
  split at h <;> try exact Option.noConfusion h
  rename_i r2 v3 g3 hn
  injection h with h2
  have hg : g2 + g3 = g := congrArg Prod.snd h2
  have hfirst : g2 = 1 ∧ ∃ st2, v2.future = some st2 := by
    by_cases hl : w.latency (requestUrlOf d) = 0
    · rw [poll_fresh_done hl] at hp
      injection hp with hp2
      have hv2 : (⟨some (.done (finishRequest w (requestUrlOf d))), none⟩ : Videos) = v2 :=
        congrArg Prod.fst hp2
      have hg2 : ((.ready (finishRequest w (requestUrlOf d)), 1) : PollOut × Nat) = (out2, g2) :=
        congrArg Prod.snd hp2
      exact ⟨(congrArg Prod.snd hg2).symm, ⟨_, by rw [← hv2]⟩⟩
    · rw [poll_fresh_wait (by omega)] at hp
      injection hp with hp2
      have hv2 : (⟨some (.waiting (requestUrlOf d) 1), none⟩ : Videos) = v2 :=
        congrArg Prod.fst hp2
      have hg2 : ((PollOut.pending, 1) : PollOut × Nat) = (out2, g2) :=
        congrArg Prod.snd hp2
      exact ⟨(congrArg Prod.snd hg2).symm, ⟨_, by rw [← hv2]⟩⟩
  obtain ⟨hg2, st2, hst2⟩ := hfirst
  have hg3 : g3 = 0 := pollN_started_zero w n v2 st2 hst2 v3 g3 hn
  omega


/-! ### The claims -/


/-! ### Example values used by the claim witnesses -/

/-- The configuration of the end-to-end scenario. -/
def exampleData : VideosData :=
  ⟨"ABC", "snippet,contentDetails", some "DnJgoWDxG2A"⟩

/-- A transport whose response needs one extra poll and then succeeds. -/
def slowWorld : World := ⟨fun _ => 1, fun _ => .ok "null"⟩

/-- A transport that fails immediately with a connection error. -/
def failWorld : World := ⟨fun _ => 0, fun _ => .error "connection refused"⟩

/-- A transport that immediately returns a body that is not valid JSON. -/
def badBodyWorld : World := ⟨fun _ => 0, fun _ => .ok "nope"⟩

/-- C1: polling a `Videos` executor repeatedly is panic-free up to
completion and issues exactly one HTTP GET in total: any completed poll
sequence has GET count 1, the first poll issues the GET and installs the
future, and every poll that finds a stored future issues no GET. -/
theorem c1_single_get (d : VideosData) (w : World) :
    (∀ (n : Nat) (v : Videos) (g : Nat),
      Videos.pollN ⟨none, some d⟩ w (n + 1) = some (v, g) → g = 1)
    ∧ (∀ n, n ≤ w.latency (requestUrlOf d) →
      ∃ v, Videos.pollN ⟨none, some d⟩ w (n + 1) = some (v, 1))
    ∧ (∃ v1 out1, Videos.poll ⟨none, some d⟩ w = some (v1, out1, 1) ∧
        v1.future.isSome = true)
    ∧ (∀ (st : FutureState) (dat : Option VideosData) (r : Videos × PollOut × Nat),
        Videos.poll ⟨some st, dat⟩ w = some r → r.2.2 = 0) := by
  refine ⟨pollN_gets_one d w, pollN_one_get d w, ?_, ?_⟩
  · by_cases h : w.latency (requestUrlOf d) = 0
    · exact ⟨_, _, poll_fresh_done h, rfl⟩
    · exact ⟨_, _, poll_fresh_wait (by omega), rfl⟩
  · intro st dat r h
    exact poll_started_no_get h

theorem c1_single_get_witness :
    (∃ v, Videos.pollN ⟨none, some exampleData⟩ slowWorld 2 = some (v, 1)) :=
  (c1_single_get exampleData slowWorld).2.1 1 (by decide)

/-- C2: with the request in flight, a transport failure surfaces as a
`Connection` error carrying the transport's message verbatim, and a body
that fails to deserialize surfaces as a `Deserialization` error carrying
the exact raw body and the parse diagnostic; either way exactly one GET
was issued and no retry happens. -/
theorem c2_error_classification (d : VideosData) (w : World)
    (hlat : w.latency (requestUrlOf d) = 0) :
    (∀ msg, w.result (requestUrlOf d) = .error msg →
      Videos.poll ⟨none, some d⟩ w =
        some (⟨some (.done (.error (.Connection msg))), none⟩,
          .ready (.error (.Connection msg)), 1))
    ∧ (∀ body diag, w.result (requestUrlOf d) = .ok body →
        serdeFromStr body = .error diag →
        Videos.poll ⟨none, some d⟩ w =
          some (⟨some (.done (.error (.Deserialization body diag))), none⟩,
            .ready (.error (.Deserialization body diag)), 1)) := by
  constructor
  · intro msg hres
    rw [poll_fresh_done hlat]
    simp [finishRequest, hres, errorFromSurf]
  · intro body diag hres hparse
    rw [poll_fresh_done hlat]
    simp [finishRequest, hres, hparse]

theorem c2_error_classification_witness :
    Videos.poll ⟨none, some exampleData⟩ failWorld =
      some (⟨some (.done (.error (.Connection "connection refused"))), none⟩,
        .ready (.error (.Connection "connection refused")), 1) ∧
    Videos.poll ⟨none, some exampleData⟩ badBodyWorld =
      some (⟨some (.done (.error (.Deserialization "nope" "unexpected character"))), none⟩,
        .ready (.error (.Deserialization "nope" "unexpected character")), 1) :=
  ⟨(c2_error_classification exampleData failWorld rfl).1 "connection refused" rfl,
   (c2_error_classification exampleData badBodyWorld rfl).2 "nope"
     "unexpected character" rfl (by decide)⟩

/-- C3: the builder chain `new("ABC").id("DnJgoWDxG2A")` produces the
config `{key: ABC, part: snippet,contentDetails, id: DnJgoWDxG2A}`, and
that config encodes to exactly
`key=ABC&part=snippet%2CcontentDetails&id=DnJgoWDxG2A` (field order key,
part, id; the comma of the fixed part value percent-encoded as %2C). -/
theorem c3_end_to_end_query :
    Videos.id (Videos.new "ABC") "DnJgoWDxG2A" = some ⟨none, some exampleData⟩ ∧
    exampleData.encode =
      .ok "key=ABC&part=snippet%2CcontentDetails&id=DnJgoWDxG2A" :=
  ⟨rfl, by decide⟩

/-- C4: a top-level object missing `kind` or `etag` fails to deserialize,
an item object missing `kind`, `etag` or `id` fails to deserialize, such a
bad element inside `items` fails the whole response (all-or-nothing), and
through the executor the failure surfaces as a `Deserialization` error
carrying the body. -/
theorem c4_required_fields (fs : List (String × Json)) :
    ((missingField fs "kind" ∨ missingField fs "etag") →
      ∃ e, Response.fromJson (.obj fs) = .error e)
    ∧ ((missingField fs "kind" ∨ missingField fs "etag" ∨ missingField fs "id") →
      ∃ e, VideoResult.fromJson (.obj fs) = .error e)
    ∧ (∀ (l : List Json) (gs : List (String × Json)),
        getField fs "items" = .ok (some (.arr l)) → Json.obj gs ∈ l →
        (missingField gs "kind" ∨ missingField gs "etag" ∨ missingField gs "id") →
        ∃ e, Response.fromJson (.obj fs) = .error e)
    ∧ (∀ (w : World) (url body : String),
        w.result url = .ok body → jsonParse body = .ok (.obj fs) →
        (missingField fs "kind" ∨ missingField fs "etag") →
        ∃ e, finishRequest w url = .error (.Deserialization body e)) := by
  refine ⟨response_missing_required, videoResult_missing_required, ?_, ?_⟩
  · intro l gs hitems hmem hmiss
    exact response_item_missing hitems hmem (videoResult_missing_required hmiss)
  · intro w url body hw hj hmiss
    obtain ⟨e, he⟩ := response_missing_required hmiss
    exact ⟨e, finishRequest_deserialization hw (serdeFromStr_error_of_fromJson hj he)⟩

theorem c4_required_fields_witness :
    (∃ e, Response.fromJson (.obj [("etag", .str "e")]) = .error e) ∧
    (∃ e, VideoResult.fromJson
      (.obj [("kind", .str "youtube#video"), ("etag", .str "e")]) = .error e) :=
  ⟨(c4_required_fields [("etag", .str "e")]).1 (Or.inl (by decide)),
   (c4_required_fields [("kind", .str "youtube#video"), ("etag", .str "e")]).2.1
     (Or.inr (Or.inr (by decide)))⟩

/-- C6: whenever a document deserializes to a `Response`, every field
present in the document is preserved in the result (through items,
snippets, content details and thumbnails) and every absent optional field
is the `none` value, never a defaulted sentinel — stated by the spec-side
relation `Response.agrees`. -/
theorem c6_roundtrip_preservation (j : Json) (r : Response)
    (h : Response.fromJson j = .ok r) : Response.agrees j r = true :=
  response_fromJson_agrees j r h

/-- A well-formed example document for the round-trip witness, with both
present and absent optional fields at every level. -/
def exampleDoc : Json :=
  .obj [
    ("kind", .str "youtube#videoListResponse"),
    ("etag", .str "etag123"),
    ("nextPageToken", .str "NPT"),
    ("pageInfo", .obj [("totalResults", .num 1), ("resultsPerPage", .num 5)]),
    ("items", .arr [Json.obj [
      ("kind", .str "youtube#video"),
      ("etag", .str "etag456"),
      ("id", .str "DnJgoWDxG2A"),
      ("snippet", .obj [
        ("publishedAt", .str "2019-05-01T12:00:00Z"),
        ("title", .str "Rust"),
        ("thumbnails", .obj [
          ("default", .obj [("url", .str "http://example/x.jpg"),
                            ("width", .num 120)])])]),
      ("contentDetails", .obj [("duration", .str "PT4M13S")])]])]

def exampleResponse : Response :=
  ⟨"youtube#videoListResponse", "etag123", some "NPT", none, ⟨1, 5⟩,
   [⟨"youtube#video", "etag456", "DnJgoWDxG2A",
     ⟨some ⟨"2019-05-01T12:00:00Z"⟩, none, some "Rust", none,
      some ⟨some ⟨"http://example/x.jpg", some 120, none⟩, none, none, none, none⟩,
      none, none, none⟩,
     ⟨some "PT4M13S", none, none⟩⟩]⟩

theorem c6_roundtrip_preservation_witness :
    Response.agrees exampleDoc exampleResponse = true :=
  c6_roundtrip_preservation exampleDoc exampleResponse (by decide)

/-- C7: every configuration reachable through the builder encodes
successfully, so the `Serialization` error branch is unreachable: no poll
outcome of such an executor is a `Serialization` error, and the completed
request value is never one either. -/
theorem c7_serialization_unreachable (key : String) (v : Videos) (d : VideosData)
    (hreach : v = Videos.new key ∨ ∃ i, Videos.id (Videos.new key) i = some v)
    (hdata : v.data = some d) :
    d.encode = .ok d.queryString
    ∧ (∀ (w : World) (r : Videos × PollOut × Nat),
        Videos.poll v w = some r →
        ∀ e, r.2.1 ≠ .ready (.error (.Serialization e)))
    ∧ (∀ (w : World) (url : String) (e : String),
        finishRequest w url ≠ .error (.Serialization e)) := by
  have hv : v = ⟨none, some d⟩ := by
    rcases hreach with h | ⟨i, h⟩
    · subst h
      injection hdata with h2
      rw [← h2]
      rfl
    · simp only [Videos.id, Videos.new] at h
      injection h with h2
      rw [← h2] at hdata ⊢
      injection hdata with h3
      rw [← h3]
  subst hv
  refine ⟨VideosData.encode_ok d, ?_, finishRequest_no_serialization⟩
  intro w r hp e
  by_cases hl : w.latency (requestUrlOf d) = 0
  · rw [poll_fresh_done hl] at hp
    injection hp with hp2
    have hout : ((.ready (finishRequest w (requestUrlOf d)), 1) : PollOut × Nat) =
        (r.2.1, r.2.2) := by rw [← congrArg Prod.snd hp2]
    have hout1 : PollOut.ready (finishRequest w (requestUrlOf d)) = r.2.1 :=
      congrArg Prod.fst hout
    rw [← hout1]
    intro hcontra
    injection hcontra with h3
    exact finishRequest_no_serialization w (requestUrlOf d) e h3
  · rw [poll_fresh_wait (by omega)] at hp
    injection hp with hp2
    have hout : ((PollOut.pending, 1) : PollOut × Nat) = (r.2.1, r.2.2) := by
      rw [← congrArg Prod.snd hp2]
    have hout1 : PollOut.pending = r.2.1 := congrArg Prod.fst hout
    rw [← hout1]
    intro hcontra
    exact PollOut.noConfusion hcontra

theorem c7_serialization_unreachable_witness :
    exampleData.encode = .ok exampleData.queryString :=
  (c7_serialization_unreachable "ABC" ⟨none, some exampleData⟩ exampleData
    (Or.inr ⟨"DnJgoWDxG2A", rfl⟩) rfl).1

/-- C8: the custom `Serialize` impl for `VideoLocation` renders
`new(1.5, 2.5)` (longitude 1.5 = 3·2⁻¹, latitude 2.5 = 5·2⁻¹ as exact
`f32` values) as the literal text `1.5,2.5`: longitude first, comma, no
spaces. -/
theorem c8_video_location_serialization :
    VideoLocation.serializeStr (VideoLocation.new ⟨3, 1⟩ ⟨5, 1⟩) = "1.5,2.5" := by
  decide

/-- C9: beyond kind/etag/id, deserialization also requires `pageInfo` and
`items` on the top level, `snippet` and `contentDetails` on every item
(also through the `items` array, all-or-nothing), and `url` on every
thumbnail (also through a `Thumbnails` object's entries); the executor
surfaces such bodies as a `Deserialization` error. -/
theorem c9_implicit_required_fields (fs : List (String × Json)) :
    ((missingField fs "pageInfo" ∨ missingField fs "items") →
      ∃ e, Response.fromJson (.obj fs) = .error e)
    ∧ ((missingField fs "snippet" ∨ missingField fs "contentDetails") →
      ∃ e, VideoResult.fromJson (.obj fs) = .error e)
    ∧ (missingField fs "url" → ∃ e, Thumbnail.fromJson (.obj fs) = .error e)
    ∧ (∀ (l : List Json) (gs : List (String × Json)),
        getField fs "items" = .ok (some (.arr l)) → Json.obj gs ∈ l →
        (missingField gs "snippet" ∨ missingField gs "contentDetails") →
        ∃ e, Response.fromJson (.obj fs) = .error e)
    ∧ (∀ (gs : List (String × Json)),
        getField fs "default" = .ok (some (.obj gs)) → missingField gs "url" →
        ∃ e, Thumbnails.fromJson (.obj fs) = .error e)
    ∧ (∀ (w : World) (url body : String),
        w.result url = .ok body → jsonParse body = .ok (.obj fs) →
        (missingField fs "pageInfo" ∨ missingField fs "items") →
        ∃ e, finishRequest w url = .error (.Deserialization body e)) := by
  refine ⟨response_missing_structs, videoResult_missing_structs,
    thumbnail_missing_url, ?_, ?_, ?_⟩
  · intro l gs hitems hmem hmiss
    exact response_item_missing hitems hmem (videoResult_missing_structs hmiss)
  · intro gs hdef hmiss
    exact thumbnails_default_missing_url hdef hmiss
  · intro w url body hw hj hmiss
    obtain ⟨e, he⟩ := response_missing_structs hmiss
    exact ⟨e, finishRequest_deserialization hw (serdeFromStr_error_of_fromJson hj he)⟩

theorem c9_implicit_required_fields_witness :
    (∃ e, Response.fromJson
      (.obj [("kind", .str "k"), ("etag", .str "e"), ("items", .arr [])]) =
        .error e) ∧
    (∃ e, Thumbnail.fromJson (.obj [("width", .num 120)]) = .error e) :=
  ⟨(c9_implicit_required_fields
      [("kind", .str "k"), ("etag", .str "e"), ("items", .arr [])]).1
      (Or.inl (by decide)),
   (c9_implicit_required_fields [("width", .num 120)]).2.2.1 (by decide)⟩

/-- C10: once a `Videos` value has been polled at least once, its stored
configuration has been consumed (`data` is `None`), so the builder method
`id`, which unconditionally unwraps it, panics. -/
theorem c10_id_after_poll_panics (d : VideosData) (w : World) (n : Nat)
    (s : String) (v : Videos) (g : Nat)
    (h : Videos.pollN ⟨none, some d⟩ w (n + 1) = some (v, g)) :
    Videos.id v s = none := by
  have hd := pollN_data_none d w n v g h
  simp [Videos.id, hd]

theorem c10_id_after_poll_panics_witness :
    Videos.id
      ⟨some (.done (.error (.Connection "connection refused"))), none⟩ "x" = none :=
  c10_id_after_poll_panics exampleData failWorld 0 "x"
    ⟨some (.done (.error (.Connection "connection refused"))), none⟩ 1 (by decide)



/-- C5: a configuration without an identifier encodes with no `id` key at
all (the pair list holds exactly the keys `key` and `part`), and a
configuration with an identifier encodes exactly one `id=<value>` pair
whose value is the form-encoding of the identifier. -/
theorem c5_id_key_occurrence (d : VideosData) :
    (d.id = none →
      d.queryPairs.filter (fun p => p.1 == "id") = [] ∧
      d.queryPairs.map Prod.fst = ["key", "part"])
    ∧ (∀ i, d.id = some i →
      d.queryPairs.filter (fun p => p.1 == "id") = [("id", formEncode i)] ∧
      d.queryPairs.map Prod.fst = ["key", "part", "id"]) := by
  constructor
  · intro h
    constructor <;> simp [VideosData.queryPairs, h]
  · intro i h
    constructor <;> simp [VideosData.queryPairs, h]

theorem c5_id_key_occurrence_witness :
    ((VideosData.mk "K" "snippet,contentDetails" none).queryPairs.filter
        (fun p => p.1 == "id") = [] ∧
      (VideosData.mk "K" "snippet,contentDetails" none).queryPairs.map Prod.fst =
        ["key", "part"]) ∧
    ((VideosData.mk "K" "snippet,contentDetails"
        (some "DnJgoWDxG2A")).queryPairs.filter (fun p => p.1 == "id") =
          [("id", formEncode "DnJgoWDxG2A")] ∧
      (VideosData.mk "K" "snippet,contentDetails"
        (some "DnJgoWDxG2A")).queryPairs.map Prod.fst = ["key", "part", "id"]) :=
  ⟨(c5_id_key_occurrence _).1 rfl,
   (c5_id_key_occurrence _).2 "DnJgoWDxG2A" rfl⟩


end YtApi
